import Mathlib

/-!
Verification of the client-side data-management layer of the adoptable-animal
catalog component (`AnimalList`): region filtering, available-region derivation,
and client-side pagination, together with the component's small state machine
(fetch lifecycle, region selection, page navigation).
-/

set_option linter.all false

/-- One adoptable animal record, as in the `Animal` interface of the source. -/
structure Animal where
  id : Int
  nombre : String
  tipo : String
  edad : String
  estado : String
  genero : String
  desc_fisica : String
  desc_personalidad : String
  desc_adicional : String
  esterilizado : Int
  vacunas : Int
  imagen : String
  equipo : String
  region : String
  comuna : String
  url : String
deriving DecidableEq, Repr

/-- The fixed canonical list of 16 Chilean administrative regions
(`allRegions` constant in the source). -/
def allRegions : List String :=
  ["Arica y Parinacota", "Tarapacá", "Antofagasta", "Atacama", "Coquimbo",
   "Valparaíso", "RM", "O\x27Higgins", "Maule", "Ñuble", "Biobío",
   "La Araucanía", "Los Ríos", "Los Lagos", "Aisén",
   "Magallanes y Antártica Chilena"]

/-- `ITEMS_PER_PAGE` constant of the source. -/
def ITEMS_PER_PAGE : Nat := 20

/-- The `filteredAnimals` memo of the source:
`selectedRegion === 'all' ? allAnimals : allAnimals.filter(a => a.region === selectedRegion)`. -/
def filteredAnimals (allAnimals : List Animal) (selectedRegion : String) : List Animal :=
  if selectedRegion = "all" then allAnimals
  else allAnimals.filter (fun animal => animal.region == selectedRegion)

/-- The `availableRegions` memo of the source: the canonical list filtered to
the regions present in the dataset (`new Set(allAnimals.map(a => a.region))`
membership is list membership of the mapped list). -/
def availableRegions (allAnimals : List Animal) : List String :=
  let regions := allAnimals.map Animal.region
  allRegions.filter (fun region => regions.contains region)

/-- The `totalPages` computation of the source:
`Math.ceil(filteredAnimals.length / ITEMS_PER_PAGE)`, as ceiling division on
naturals. -/
def totalPages (filteredCount : Nat) : Nat :=
  (filteredCount + ITEMS_PER_PAGE - 1) / ITEMS_PER_PAGE

/-- The `currentAnimals` memo of the source:
`filteredAnimals.slice(startIndex, startIndex + ITEMS_PER_PAGE)` with
`startIndex = (currentPage - 1) * ITEMS_PER_PAGE`. JavaScript `slice` with a
non-negative start index is drop-then-take; theorems about it assume
`1 ≤ currentPage` so that the start index is non-negative as in the source. -/
def currentAnimals (filtered : List Animal) (currentPage : Nat) : List Animal :=
  let startIndex := (currentPage - 1) * ITEMS_PER_PAGE
  (filtered.drop startIndex).take ITEMS_PER_PAGE

/-- Modelled from the spec: `totalPages(filteredCount, pageSize) =
max(1, ceil(filteredCount / pageSize))` at the source's fixed page size,
for comparison with the source's `totalPages`. -/
def totalPages_spec (filteredCount : Nat) : Nat :=
  max 1 ((filteredCount + ITEMS_PER_PAGE - 1) / ITEMS_PER_PAGE)

/-- Modelled from the spec: `clampPage(requestedPage, totalPages) =
max(1, min(requestedPage, totalPages))`, for comparison with the source's
page-navigation updates. -/
def clampPage (requestedPage total : Nat) : Nat :=
  max 1 (min requestedPage total)

/-- Sanity: the source's ceiling division (its rendering of `Math.ceil`)
agrees with the exact rational ceiling. -/
theorem totalPages_eq_ceil (n : Nat) :
    (totalPages n : ℤ) = ⌈(n : ℚ) / (ITEMS_PER_PAGE : ℚ)⌉ := by
  have hdm := Nat.div_add_mod (n + 19) 20
  have hm : (n + 19) % 20 < 20 := Nat.mod_lt _ (by norm_num)
  have h1 : n ≤ 20 * ((n + 19) / 20) := by omega
  have h2 : 20 * ((n + 19) / 20) ≤ n + 19 := by omega
  symm
  rw [Int.ceil_eq_iff]
  unfold totalPages ITEMS_PER_PAGE
  rw [show n + 20 - 1 = n + 19 by omega]
  rw [show ((20 : ℕ) : ℚ) = (20 : ℚ) by norm_num]
  rw [show ((((n + 19) / 20 : ℕ) : ℤ) : ℚ) = (((n + 19) / 20 : ℕ) : ℚ) by norm_cast]
  constructor
  · rw [lt_div_iff (by norm_num : (0:ℚ) < 20)]
    have h2q : ((20 * ((n + 19) / 20) : ℕ) : ℚ) ≤ ((n + 19 : ℕ) : ℚ) := by
      exact_mod_cast h2
    push_cast at h2q
    linarith
  · rw [div_le_iff (by norm_num : (0:ℚ) < 20)]
    have h1q : ((n : ℕ) : ℚ) ≤ ((20 * ((n + 19) / 20) : ℕ) : ℚ) := by
      exact_mod_cast h1
    push_cast at h1q
    linarith

/-- A concrete record used to instantiate theorems on concrete inputs. -/
def sampleAnimal : Animal :=
  { id := 1, nombre := "Firulais", tipo := "perro", edad := "adulto",
    estado := "adopcion", genero := "macho", desc_fisica := "cafe",
    desc_personalidad := "docil", desc_adicional := "", esterilizado := 1,
    vacunas := 1, imagen := "img", equipo := "equipo", region := "RM",
    comuna := "Santiago", url := "url" }

/-- A second concrete record with a different region. -/
def sampleAnimalB : Animal :=
  { sampleAnimal with
    id := 2
    nombre := "Michi"
    tipo := "gato"
    region := "Biobío"
    comuna := "Concepción" }

/-- A 45-record dataset, for the pagination scenario. -/
def sampleDataset45 : List Animal := List.replicate 45 sampleAnimal

/-- C7: with the sentinel filter value `all`, the filtered view is the full
dataset unchanged — same elements in the same order. -/
theorem C7_filter_all_identity (D : List Animal) : filteredAnimals D "all" = D := by
  simp [filteredAnimals]

/-- C2: for a non-sentinel region `R`, the filtered view consists exactly of
the records whose `region` equals `R`, is a sublist of the dataset (order
preserved, no duplication), and its length is the count of records with
region `R`. -/
theorem C2_filter_region (D : List Animal) (R : String) (hR : R ≠ "all") :
    (∀ a ∈ filteredAnimals D R, a.region = R) ∧
    (filteredAnimals D R).Sublist D ∧
    (filteredAnimals D R).length = D.countP (fun a => a.region == R) := by
  refine ⟨?_, ?_, ?_⟩
  · intro a ha
    rw [filteredAnimals, if_neg hR] at ha
    exact by simpa using (List.mem_filter.mp ha).2
  · rw [filteredAnimals, if_neg hR]
    exact List.filter_sublist D
  · rw [filteredAnimals, if_neg hR]
    exact (List.countP_eq_length_filter _ _).symm

/-- Witness for C2 at a concrete dataset and region. -/
theorem C2_filter_region_witness :
    "RM" ≠ "all" ∧
    ((∀ a ∈ filteredAnimals [sampleAnimal, sampleAnimalB] "RM", a.region = "RM") ∧
     (filteredAnimals [sampleAnimal, sampleAnimalB] "RM").Sublist
       [sampleAnimal, sampleAnimalB] ∧
     (filteredAnimals [sampleAnimal, sampleAnimalB] "RM").length =
       List.countP (fun a => a.region == "RM") [sampleAnimal, sampleAnimalB]) :=
  ⟨by decide, C2_filter_region [sampleAnimal, sampleAnimalB] "RM" (by decide)⟩

/-- Counterexample to C1: the source computes `Math.ceil(count / 20)` without
flooring at 1, so an empty filtered dataset yields `totalPages = 0`, not 1. -/
theorem C1_total_pages_cex :
    totalPages (filteredAnimals [] "Biobío").length = 0 ∧
    totalPages_spec (filteredAnimals [] "Biobío").length = 1 ∧
    totalPages 0 ≠ totalPages_spec 0 := by decide

/-- C1 amended: for `filteredCount ≥ 1` the source's `totalPages` agrees with
the spec's `max(1, ceil(count / pageSize))` and is ≥ 1; but at
`filteredCount = 0` — in particular whenever the selected region occurs in no
record — the source yields `totalPages = 0`. -/
theorem C1_total_pages_amended :
    (∀ n, 1 ≤ n → totalPages n = totalPages_spec n ∧ 1 ≤ totalPages n) ∧
    totalPages 0 = 0 ∧
    (∀ (D : List Animal) (R : String), R ≠ "all" → (∀ a ∈ D, a.region ≠ R) →
      filteredAnimals D R = [] ∧ totalPages (filteredAnimals D R).length = 0) := by
  refine ⟨?_, by decide, ?_⟩
  · intro n hn
    unfold totalPages totalPages_spec ITEMS_PER_PAGE
    omega
  · intro D R hR hnone
    have hnil : filteredAnimals D R = [] := by
      rw [filteredAnimals, if_neg hR]
      exact List.filter_eq_nil_iff.mpr (fun a ha => by simpa using hnone a ha)
    exact ⟨hnil, by rw [hnil]; decide⟩

/-- Witness for the amended C1 at concrete inputs. -/
theorem C1_total_pages_amended_witness :
    (1 ≤ 45 ∧ totalPages 45 = totalPages_spec 45 ∧ 1 ≤ totalPages 45) ∧
    (filteredAnimals [sampleAnimal] "Maule" = [] ∧
     totalPages (filteredAnimals [sampleAnimal] "Maule").length = 0) :=
  ⟨⟨by decide, C1_total_pages_amended.1 45 (by decide)⟩,
   C1_total_pages_amended.2.2 [sampleAnimal] "Maule" (by decide) (by decide)⟩

/-- C6: the visible page is the contiguous slice
`[(currentPage-1)*pageSize, min(currentPage*pageSize, filteredCount))` of the
filtered dataset, empty when the filtered dataset is empty; with the fixed
page size 20 a 45-record filtered dataset has `totalPages = 3` and pages
1, 2, 3 hold 20, 20 and 5 records. -/
theorem C6_visible_page (f : List Animal) (p : Nat) (hp : 1 ≤ p) :
    (currentAnimals f p).length =
      min (p * ITEMS_PER_PAGE) f.length - (p - 1) * ITEMS_PER_PAGE ∧
    (∀ i, i < (currentAnimals f p).length →
      (currentAnimals f p)[i]? = f[(p - 1) * ITEMS_PER_PAGE + i]?) ∧
    (f.length = 0 → currentAnimals f p = []) ∧
    (f.length = 45 →
      totalPages f.length = 3 ∧
      (currentAnimals f 1).length = 20 ∧
      (currentAnimals f 2).length = 20 ∧
      (currentAnimals f 3).length = 5) := by
  refine ⟨?_, ?_, ?_, ?_⟩
  · simp only [currentAnimals, List.length_take, List.length_drop, ITEMS_PER_PAGE]
    omega
  · intro i hi
    simp only [currentAnimals, List.length_take, List.length_drop,
      ITEMS_PER_PAGE] at hi ⊢
    rw [List.getElem?_take, if_pos (by omega), List.getElem?_drop]
  · intro h0
    have : f = [] := List.length_eq_zero.mp h0
    simp [this, currentAnimals]
  · intro h45
    refine ⟨by rw [h45]; decide, ?_, ?_, ?_⟩ <;>
      simp only [currentAnimals, List.length_take, List.length_drop,
        ITEMS_PER_PAGE, h45] <;> decide

/-- Witness for C6 on a concrete 45-record dataset at page 3. -/
theorem C6_visible_page_witness :
    1 ≤ 3 ∧
    (currentAnimals sampleDataset45 3).length =
      min (3 * ITEMS_PER_PAGE) sampleDataset45.length - (3 - 1) * ITEMS_PER_PAGE :=
  ⟨by decide, (C6_visible_page sampleDataset45 3 (by decide)).1⟩

/-- C9: the filtering and pagination computations are total functions with
well-defined (empty or clamped) outputs on degenerate inputs: empty dataset,
empty filter result, and out-of-range page requests. -/
theorem C9_totality (D : List Animal) (r : String) (p : Nat) (f : List Animal) :
    filteredAnimals [] r = [] ∧
    availableRegions [] = [] ∧
    currentAnimals [] p = [] ∧
    (f.length ≤ (p - 1) * ITEMS_PER_PAGE → currentAnimals f p = []) ∧
    (filteredAnimals D r).length ≤ D.length ∧
    (currentAnimals f p).length ≤ ITEMS_PER_PAGE := by
  refine ⟨?_, by decide, ?_, ?_, ?_, ?_⟩
  · unfold filteredAnimals
    split <;> simp
  · simp [currentAnimals]
  · intro hout
    simp [currentAnimals, List.drop_eq_nil_iff.mpr hout]
  · unfold filteredAnimals
    split
    · exact le_rfl
    · exact List.length_filter_le _ _
  · exact List.length_take_le _ _

/-- Witness for C9: a page past the end of a 45-record dataset is empty. -/
theorem C9_totality_witness :
    sampleDataset45.length ≤ (4 - 1) * ITEMS_PER_PAGE ∧
    currentAnimals sampleDataset45 4 = [] :=
  ⟨by decide, (C9_totality [] "all" 4 sampleDataset45).2.2.2.1 (by decide)⟩

/-- C5: the available-region list has no duplicates, is an ordered sublist of
the 16-entry canonical region list (so its order is canonical), every entry is
the region of some record, non-canonical record regions are excluded, and the
result is unchanged under reordering the dataset. -/
theorem C5_available_regions (D D2 : List Animal) (hperm : D.Perm D2) :
    (availableRegions D).Nodup ∧
    (availableRegions D).Sublist allRegions ∧
    (∀ r ∈ availableRegions D, r ∈ allRegions ∧ ∃ a ∈ D, a.region = r) ∧
    (∀ a ∈ D, a.region ∉ allRegions → a.region ∉ availableRegions D) ∧
    availableRegions D = availableRegions D2 := by
  have hall : allRegions.Nodup := by decide
  refine ⟨hall.filter _, List.filter_sublist _, ?_, ?_, ?_⟩
  · intro r hr
    rw [availableRegions] at hr
    have hr' := List.mem_filter.mp hr
    refine ⟨hr'.1, ?_⟩
    have : r ∈ D.map Animal.region := by simpa using hr'.2
    obtain ⟨a, ha, hreg⟩ := List.mem_map.mp this
    exact ⟨a, ha, hreg⟩
  · intro a _ hnot hmem
    rw [availableRegions] at hmem
    exact hnot (List.mem_filter.mp hmem).1
  · rw [availableRegions, availableRegions]
    refine List.filter_congr ?_
    intro r _
    have hmm : r ∈ D.map Animal.region ↔ r ∈ D2.map Animal.region :=
      (hperm.map Animal.region).mem_iff
    show List.elem r (D.map Animal.region) = List.elem r (D2.map Animal.region)
    rw [List.elem_eq_mem, List.elem_eq_mem]
    exact decide_eq_decide.mpr hmm

/-- Witness for C5 on a concrete two-record dataset and its reversal. -/
theorem C5_available_regions_witness :
    ([sampleAnimal, sampleAnimalB].Perm [sampleAnimalB, sampleAnimal]) ∧
    ((availableRegions [sampleAnimal, sampleAnimalB]).Nodup ∧
     (availableRegions [sampleAnimal, sampleAnimalB]).Sublist allRegions ∧
     (∀ r ∈ availableRegions [sampleAnimal, sampleAnimalB],
        r ∈ allRegions ∧ ∃ a ∈ [sampleAnimal, sampleAnimalB], a.region = r) ∧
     (∀ a ∈ [sampleAnimal, sampleAnimalB],
        a.region ∉ allRegions → a.region ∉ availableRegions [sampleAnimal, sampleAnimalB]) ∧
     availableRegions [sampleAnimal, sampleAnimalB] =
       availableRegions [sampleAnimalB, sampleAnimal]) :=
  ⟨by decide,
   C5_available_regions [sampleAnimal, sampleAnimalB] [sampleAnimalB, sampleAnimal]
     (by decide)⟩

/-- The component's mutable state: the five `useState` hooks of `AnimalList`. -/
structure ComponentState where
  allAnimals : List Animal
  currentPage : Nat
  isLoading : Bool
  error : Option String
  selectedRegion : String
deriving DecidableEq, Repr

/-- The fixed error message set by the failure branch of `fetchAllAnimals`. -/
def errorMessage : String := "Error fetching animals. Please try again later."

/-- The render-time `totalPages` of a state: `totalPages` applied to the
length of the derived filtered view. -/
def derivedTotalPages (s : ComponentState) : Nat :=
  totalPages (filteredAnimals s.allAnimals s.selectedRegion).length

/-- The initial state of the component: `useState` defaults
`([], 1, true, null, 'all')`. -/
def initState : ComponentState :=
  { allAnimals := [], currentPage := 1, isLoading := true, error := none,
    selectedRegion := "all" }

/-- `handleRegionChange`: sets the selected region and resets the page to 1,
as one update of the state. -/
def handleRegionChange (s : ComponentState) (value : String) : ComponentState :=
  { s with selectedRegion := value, currentPage := 1 }

/-- The previous-page button: `setCurrentPage(prev => Math.max(prev - 1, 1))`. -/
def prevPageClick (s : ComponentState) : ComponentState :=
  { s with currentPage := max (s.currentPage - 1) 1 }

/-- The next-page button:
`setCurrentPage(prev => Math.min(prev + 1, totalPages))`. -/
def nextPageClick (s : ComponentState) : ComponentState :=
  { s with currentPage := min (s.currentPage + 1) (derivedTotalPages s) }

/-- A numbered pagination link: `setCurrentPage(index + 1)`. -/
def gotoPage (s : ComponentState) (n : Nat) : ComponentState :=
  { s with currentPage := n }

/-- The success branch of `fetchAllAnimals`: stores the dataset, then the
`finally` block clears the loading flag. -/
def fetchSuccess (s : ComponentState) (data : List Animal) : ComponentState :=
  { s with allAnimals := data, isLoading := false }

/-- The failure branch of `fetchAllAnimals`: sets the error message, then the
`finally` block clears the loading flag; the stored dataset is untouched. -/
def fetchFailure (s : ComponentState) : ComponentState :=
  { s with error := some errorMessage, isLoading := false }

/-- What the component exposes to the presentation layer on a render. -/
inductive RenderView where
  | loadingView
  | errorView (msg : String)
  | dataView (regions : List String) (visible : List Animal) (page total : Nat)
deriving DecidableEq, Repr

/-- The render function: early return on loading, then on error, otherwise
the data view with the derived region list, visible page and page counts. -/
def render (s : ComponentState) : RenderView :=
  if s.isLoading then RenderView.loadingView
  else
    match s.error with
    | some msg => RenderView.errorView msg
    | none =>
        RenderView.dataView (availableRegions s.allAnimals)
          (currentAnimals (filteredAnimals s.allAnimals s.selectedRegion)
            s.currentPage)
          s.currentPage (derivedTotalPages s)

/-- One user- or network-triggered transition of the component. Interactive
steps require the data view to be rendered (not loading, no error); the
previous/next buttons carry their `disabled` guards; the numbered links exist
only for pages `1..totalPages`; fetch resolution requires a pending load. -/
inductive Step : ComponentState → ComponentState → Prop where
  | fetchOk (s : ComponentState) (data : List Animal) (h : s.isLoading = true) :
      Step s (fetchSuccess s data)
  | fetchErr (s : ComponentState) (h : s.isLoading = true) :
      Step s (fetchFailure s)
  | regionChange (s : ComponentState) (value : String)
      (hl : s.isLoading = false) (he : s.error = none) :
      Step s (handleRegionChange s value)
  | prevClick (s : ComponentState)
      (hl : s.isLoading = false) (he : s.error = none)
      (hen : s.currentPage ≠ 1) :
      Step s (prevPageClick s)
  | nextClick (s : ComponentState)
      (hl : s.isLoading = false) (he : s.error = none)
      (hen : s.currentPage ≠ derivedTotalPages s) :
      Step s (nextPageClick s)
  | gotoClick (s : ComponentState) (n : Nat)
      (hl : s.isLoading = false) (he : s.error = none)
      (h1 : 1 ≤ n) (h2 : n ≤ derivedTotalPages s) :
      Step s (gotoPage s n)

/-- States reachable from the initial state through the transitions. -/
inductive Reachable : ComponentState → Prop where
  | init : Reachable initState
  | step {s s' : ComponentState} : Reachable s → Step s s' → Reachable s'

theorem derivedTotalPages_prev (s : ComponentState) :
    derivedTotalPages (prevPageClick s) = derivedTotalPages s := rfl

theorem derivedTotalPages_next (s : ComponentState) :
    derivedTotalPages (nextPageClick s) = derivedTotalPages s := rfl

theorem derivedTotalPages_goto (s : ComponentState) (n : Nat) :
    derivedTotalPages (gotoPage s n) = derivedTotalPages s := rfl

theorem derivedTotalPages_fetchFailure (s : ComponentState) :
    derivedTotalPages (fetchFailure s) = derivedTotalPages s := rfl

/-- The page invariant: while loading the page is still 1, and the page never
exceeds `max 1 totalPages`; it can drop below 1 only when `totalPages = 0`. -/
def PageInv (s : ComponentState) : Prop :=
  (s.isLoading = true → s.currentPage = 1) ∧
  (1 ≤ s.currentPage ∨ derivedTotalPages s = 0) ∧
  s.currentPage ≤ max 1 (derivedTotalPages s)

theorem pageInv_init : PageInv initState :=
  ⟨fun _ => rfl, Or.inl le_rfl, by decide⟩

theorem pageInv_step {s s' : ComponentState} (hs : Step s s') (hinv : PageInv s) :
    PageInv s' := by
  obtain ⟨h1, h2, h3⟩ := hinv
  cases hs with
  | fetchOk data h =>
    have hp : s.currentPage = 1 := h1 h
    have hc : (fetchSuccess s data).currentPage = 1 := by simp [fetchSuccess, hp]
    exact ⟨fun _ => hc, Or.inl hc.ge, by rw [hc]; exact le_max_left 1 _⟩
  | fetchErr h =>
    have hp : s.currentPage = 1 := h1 h
    have hc : (fetchFailure s).currentPage = 1 := by simp [fetchFailure, hp]
    exact ⟨fun _ => hc, Or.inl hc.ge, by rw [hc]; exact le_max_left 1 _⟩
  | regionChange value hl he =>
    exact ⟨fun _ => rfl, Or.inl le_rfl, le_max_left 1 _⟩
  | prevClick hl he hen =>
    refine ⟨fun hcon => ?_, Or.inl ?_, ?_⟩
    · simp [prevPageClick, hl] at hcon
    · show 1 ≤ max (s.currentPage - 1) 1
      omega
    · show max (s.currentPage - 1) 1 ≤ max 1 (derivedTotalPages (prevPageClick s))
      rw [derivedTotalPages_prev]
      omega
  | nextClick hl he hen =>
    refine ⟨fun hcon => ?_, ?_, ?_⟩
    · simp [nextPageClick, hl] at hcon
    · show 1 ≤ min (s.currentPage + 1) (derivedTotalPages s) ∨
        derivedTotalPages (nextPageClick s) = 0
      rw [derivedTotalPages_next]
      omega
    · show min (s.currentPage + 1) (derivedTotalPages s) ≤
        max 1 (derivedTotalPages (nextPageClick s))
      rw [derivedTotalPages_next]
      omega
  | gotoClick n hl he hn1 hn2 =>
    refine ⟨fun hcon => ?_, Or.inl ?_, ?_⟩
    · simp [gotoPage, hl] at hcon
    · exact hn1
    · show n ≤ max 1 (derivedTotalPages (gotoPage s n))
      rw [derivedTotalPages_goto]
      omega

theorem reachable_pageInv {s : ComponentState} (h : Reachable s) : PageInv s := by
  induction h with
  | init => exact pageInv_init
  | step hr hstep ih => exact pageInv_step hstep ih

/-- A reachable state with one loaded record (`totalPages = 1`). -/
def sampleLoadedState : ComponentState := fetchSuccess initState [sampleAnimal]

/-- Counterexample to C3: from the reachable empty-data state
(`totalPages = 0`, page 1) the next button is enabled and sets the page to
`min(2, 0) = 0`, which differs from `clampPage(2, 0) = 1` and lies outside
`[1, totalPages]`; so the transitions do not equal `clampPage` and the page
invariant fails when `totalPages = 0`. -/
theorem C3_page_clamping_cex :
    Reachable (nextPageClick (fetchSuccess initState [])) ∧
    (nextPageClick (fetchSuccess initState [])).currentPage = 0 ∧
    derivedTotalPages (fetchSuccess initState []) = 0 ∧
    (nextPageClick (fetchSuccess initState [])).currentPage ≠
      clampPage ((fetchSuccess initState []).currentPage + 1)
        (derivedTotalPages (fetchSuccess initState [])) ∧
    ¬ 1 ≤ (nextPageClick (fetchSuccess initState [])).currentPage :=
  ⟨Reachable.step (Reachable.step Reachable.init (Step.fetchOk initState [] rfl))
     (Step.nextClick (fetchSuccess initState []) rfl rfl (by decide)),
   by decide, by decide, by decide, by decide⟩

/-- C3 amended: `clampPage` lands in `[1, totalPages]` whenever
`totalPages ≥ 1`; the previous transition agrees with
`clampPage(currentPage - 1, totalPages)` whenever `currentPage ≤ totalPages`,
and the next transition agrees with `clampPage(currentPage + 1, totalPages)`
whenever `totalPages ≥ 1`; and every reachable state with `totalPages ≥ 1`
has `currentPage ∈ [1, totalPages]`. (When `totalPages = 0` the next
transition instead produces page 0.) -/
theorem C3_page_clamping_amended :
    (∀ r t, 1 ≤ t → 1 ≤ clampPage r t ∧ clampPage r t ≤ t) ∧
    (∀ s : ComponentState, s.currentPage ≤ derivedTotalPages s →
      (prevPageClick s).currentPage =
        clampPage (s.currentPage - 1) (derivedTotalPages s)) ∧
    (∀ s : ComponentState, 1 ≤ derivedTotalPages s →
      (nextPageClick s).currentPage =
        clampPage (s.currentPage + 1) (derivedTotalPages s)) ∧
    (∀ s : ComponentState, Reachable s → 1 ≤ derivedTotalPages s →
      1 ≤ s.currentPage ∧ s.currentPage ≤ derivedTotalPages s) := by
  refine ⟨?_, ?_, ?_, ?_⟩
  · intro r t ht
    unfold clampPage
    omega
  · intro s hle
    show max (s.currentPage - 1) 1 =
      clampPage (s.currentPage - 1) (derivedTotalPages s)
    unfold clampPage
    omega
  · intro s ht
    show min (s.currentPage + 1) (derivedTotalPages s) =
      clampPage (s.currentPage + 1) (derivedTotalPages s)
    unfold clampPage
    omega
  · intro s hre ht
    obtain ⟨-, h2, h3⟩ := reachable_pageInv hre
    omega

/-- Witness for the amended C3 at concrete pages and a concrete reachable
state. -/
theorem C3_page_clamping_amended_witness :
    (1 ≤ 3 ∧ 1 ≤ clampPage 5 3 ∧ clampPage 5 3 ≤ 3) ∧
    (prevPageClick sampleLoadedState).currentPage =
      clampPage (sampleLoadedState.currentPage - 1)
        (derivedTotalPages sampleLoadedState) ∧
    (nextPageClick sampleLoadedState).currentPage =
      clampPage (sampleLoadedState.currentPage + 1)
        (derivedTotalPages sampleLoadedState) ∧
    (1 ≤ sampleLoadedState.currentPage ∧
      sampleLoadedState.currentPage ≤ derivedTotalPages sampleLoadedState) :=
  ⟨⟨by decide, C3_page_clamping_amended.1 5 3 (by decide)⟩,
   C3_page_clamping_amended.2.1 sampleLoadedState (by decide),
   C3_page_clamping_amended.2.2.1 sampleLoadedState (by decide),
   C3_page_clamping_amended.2.2.2 sampleLoadedState
     (Reachable.step Reachable.init (Step.fetchOk initState [sampleAnimal] rfl))
     (by decide)⟩

/-- C4: the region-change handler sets the new region and resets the page to
1 in the same single transition, and no transition of the state machine
changes the selected region while keeping an old page: any step that changes
the region leaves the page at 1. -/
theorem C4_filter_reset_atomic (s s' : ComponentState) (value : String)
    (hstep : Step s s') :
    (handleRegionChange s value).currentPage = 1 ∧
    (handleRegionChange s value).selectedRegion = value ∧
    (s'.selectedRegion ≠ s.selectedRegion → s'.currentPage = 1) := by
  refine ⟨rfl, rfl, ?_⟩
  intro hne
  cases hstep with
  | fetchOk data h => exact absurd rfl hne
  | fetchErr h => exact absurd rfl hne
  | regionChange v hl he => rfl
  | prevClick hl he hen => exact absurd rfl hne
  | nextClick hl he hen => exact absurd rfl hne
  | gotoClick n hl he hn1 hn2 => exact absurd rfl hne

/-- Witness for C4: changing the region from `all` to `RM` on a loaded state
(whatever page was current) yields page 1. -/
theorem C4_filter_reset_atomic_witness :
    (handleRegionChange (fetchSuccess initState [sampleAnimal]) "RM").currentPage = 1 ∧
    (handleRegionChange (fetchSuccess initState [sampleAnimal]) "RM").selectedRegion =
      "RM" ∧
    ((handleRegionChange (fetchSuccess initState [sampleAnimal]) "RM").selectedRegion ≠
        (fetchSuccess initState [sampleAnimal]).selectedRegion →
      (handleRegionChange (fetchSuccess initState [sampleAnimal]) "RM").currentPage = 1) :=
  C4_filter_reset_atomic (fetchSuccess initState [sampleAnimal])
    (handleRegionChange (fetchSuccess initState [sampleAnimal]) "RM") "RM"
    (Step.regionChange (fetchSuccess initState [sampleAnimal]) "RM" rfl rfl)

/-- C8: after a fetch failure the error state is set, the loading flag is
cleared, the stored dataset is unchanged but the render is the error view:
no dataset (partial or previous) is exposed to the presentation layer. -/
theorem C8_fetch_failure (s : ComponentState) :
    (fetchFailure s).error = some errorMessage ∧
    (fetchFailure s).isLoading = false ∧
    (fetchFailure s).allAnimals = s.allAnimals ∧
    render (fetchFailure s) = RenderView.errorView errorMessage ∧
    (∀ regions visible page total,
      render (fetchFailure s) ≠ RenderView.dataView regions visible page total) := by
  have hr : render (fetchFailure s) = RenderView.errorView errorMessage := rfl
  refine ⟨rfl, rfl, rfl, hr, ?_⟩
  intro regions visible page total hcon
  rw [hr] at hcon
  exact RenderView.noConfusion hcon

/-- Witness for C8 at the initial state and a concrete data view. -/
theorem C8_fetch_failure_witness :
    render (fetchFailure initState) ≠ RenderView.dataView [] [] 1 0 :=
  (C8_fetch_failure initState).2.2.2.2 [] [] 1 0

/-- The positions of the dataset selected by the filter: all positions under
the sentinel `all`, otherwise the positions whose record's region matches. -/
def selectedIdx (D : List Animal) (r : String) : List Nat :=
  if r = "all" then List.range D.length
  else (List.range D.length).filter (fun i => (D[i]?).any (fun a => a.region == r))

theorem range_filter_filterMap (q : Animal → Bool) (D : List Animal) :
    ((List.range D.length).filter (fun i => (D[i]?).any q)).filterMap
      (fun i => D[i]?) = D.filter q := by
  induction D with
  | nil => simp
  | cons a rest ih =>
    rw [List.length_cons, List.range_succ_eq_map, List.filter_cons]
    rw [List.filter_map]
    have hp0 : (((a :: rest)[0]?).any q) = q a := by simp
    have hcomp :
        ((fun i => ((a :: rest)[i]?).any q) ∘ Nat.succ) =
          (fun i => (rest[i]?).any q) := by
      funext i
      simp [Function.comp]
    rw [hp0, hcomp]
    by_cases hqa : q a
    · rw [if_pos hqa, List.filterMap_cons]
      have h0 : (a :: rest)[0]? = some a := by simp
      rw [h0, List.filterMap_map]
      have hg : ((fun i => (a :: rest)[i]?) ∘ Nat.succ) = (fun i => rest[i]?) := by
        funext i
        simp
      rw [hg, ih, List.filter_cons, if_pos hqa]
    · rw [if_neg hqa, List.filterMap_map]
      have hg : ((fun i => (a :: rest)[i]?) ∘ Nat.succ) = (fun i => rest[i]?) := by
        funext i
        simp
      rw [hg, ih, List.filter_cons, if_neg hqa]

theorem range_filterMap_getElem (D : List Animal) :
    (List.range D.length).filterMap (fun i => D[i]?) = D := by
  have h := range_filter_filterMap (fun _ => true) D
  have hfix : ((List.range D.length).filter
      (fun i => (D[i]?).any (fun _ => true))) = List.range D.length := by
    apply List.filter_eq_self.mpr
    intro i hi
    have hlt : i < D.length := List.mem_range.mp hi
    simp [List.getElem?_eq_getElem hlt]
  rw [hfix] at h
  simpa using h

theorem selectedIdx_filterMap (D : List Animal) (r : String) :
    (selectedIdx D r).filterMap (fun i => D[i]?) = filteredAnimals D r := by
  unfold selectedIdx filteredAnimals
  by_cases hall : r = "all"
  · rw [if_pos hall, if_pos hall]
    exact range_filterMap_getElem D
  · rw [if_neg hall, if_neg hall]
    exact range_filter_filterMap _ D

theorem selectedIdx_mem_lt {D : List Animal} {r : String} {i : Nat}
    (h : i ∈ selectedIdx D r) : i < D.length := by
  unfold selectedIdx at h
  split at h
  · exact List.mem_range.mp h
  · exact List.mem_range.mp (List.mem_filter.mp h).1

theorem filterMap_length_of_isSome {α β : Type} (f : α → Option β) (l : List α)
    (h : ∀ x ∈ l, (f x).isSome) : (l.filterMap f).length = l.length := by
  induction l with
  | nil => rfl
  | cons x xs ih =>
    have hx := h x (List.mem_cons_self x xs)
    rcases hfx : f x with _ | b
    · rw [hfx] at hx
      simp at hx
    · rw [List.filterMap_cons, hfx]
      simp [ih (fun y hy => h y (List.mem_cons_of_mem x hy))]

theorem selectedIdx_eq_of_map_region (D1 D2 : List Animal)
    (hmap : D1.map Animal.region = D2.map Animal.region) (r : String) :
    selectedIdx D1 r = selectedIdx D2 r := by
  have hlen : D1.length = D2.length := by
    have hml := congrArg List.length hmap
    simpa using hml
  have hreg : ∀ i : Nat,
      (D1[i]?).map Animal.region = (D2[i]?).map Animal.region := by
    intro i
    have hmi : (D1.map Animal.region)[i]? = (D2.map Animal.region)[i]? := by
      rw [hmap]
    simpa [List.getElem?_map] using hmi
  unfold selectedIdx
  rw [hlen]
  split
  · rfl
  · apply List.filter_congr
    intro i _
    have h := hreg i
    rcases h1 : D1[i]? with _ | a1 <;> rcases h2 : D2[i]? with _ | a2 <;>
      rw [h1, h2] at h <;> simp_all

/-- C10: on datasets whose records agree pairwise on the `region` field, the
selected positions, their grounding in the filtered views, the available
regions, the filtered and visible-page lengths, the total page count, and the
positions of the visible page all coincide: the derivations depend only on
each record's region and position, not on any other field. -/
theorem C10_region_noninterference (D1 D2 : List Animal) (r : String) (p : Nat)
    (hmap : D1.map Animal.region = D2.map Animal.region) :
    selectedIdx D1 r = selectedIdx D2 r ∧
    (selectedIdx D1 r).filterMap (fun i => D1[i]?) = filteredAnimals D1 r ∧
    (selectedIdx D2 r).filterMap (fun i => D2[i]?) = filteredAnimals D2 r ∧
    availableRegions D1 = availableRegions D2 ∧
    (filteredAnimals D1 r).length = (filteredAnimals D2 r).length ∧
    totalPages (filteredAnimals D1 r).length =
      totalPages (filteredAnimals D2 r).length ∧
    ((selectedIdx D1 r).drop ((p - 1) * ITEMS_PER_PAGE)).take ITEMS_PER_PAGE =
      ((selectedIdx D2 r).drop ((p - 1) * ITEMS_PER_PAGE)).take ITEMS_PER_PAGE ∧
    (currentAnimals (filteredAnimals D1 r) p).length =
      (currentAnimals (filteredAnimals D2 r) p).length := by
  have hsel : selectedIdx D1 r = selectedIdx D2 r :=
    selectedIdx_eq_of_map_region D1 D2 hmap r
  have hg1 := selectedIdx_filterMap D1 r
  have hg2 := selectedIdx_filterMap D2 r
  have hlen1 : (filteredAnimals D1 r).length = (selectedIdx D1 r).length := by
    rw [← hg1]
    exact filterMap_length_of_isSome _ _ (fun i hi => by
      simp [List.getElem?_eq_getElem (selectedIdx_mem_lt hi)])
  have hlen2 : (filteredAnimals D2 r).length = (selectedIdx D2 r).length := by
    rw [← hg2]
    exact filterMap_length_of_isSome _ _ (fun i hi => by
      simp [List.getElem?_eq_getElem (selectedIdx_mem_lt hi)])
  have hflen : (filteredAnimals D1 r).length = (filteredAnimals D2 r).length := by
    rw [hlen1, hlen2, hsel]
  have hav : availableRegions D1 = availableRegions D2 := by
    unfold availableRegions
    rw [hmap]
  refine ⟨hsel, hg1, hg2, hav, hflen, by rw [hflen], by rw [hsel], ?_⟩
  simp [currentAnimals, List.length_take, List.length_drop, hflen]

/-- Like `sampleAnimal` but differing in every non-region descriptive field. -/
def sampleAnimalC : Animal :=
  { sampleAnimal with
    id := 3
    nombre := "Rex"
    tipo := "gato"
    desc_fisica := "negro" }

/-- Like `sampleAnimalB` but differing in non-region fields. -/
def sampleAnimalD : Animal :=
  { sampleAnimalB with
    id := 4
    nombre := "Luna"
    esterilizado := 0 }

/-- Witness for C10 on two concrete datasets agreeing only on regions. -/
theorem C10_region_noninterference_witness :
    ([sampleAnimal, sampleAnimalB].map Animal.region =
      [sampleAnimalC, sampleAnimalD].map Animal.region) ∧
    selectedIdx [sampleAnimal, sampleAnimalB] "RM" =
      selectedIdx [sampleAnimalC, sampleAnimalD] "RM" ∧
    availableRegions [sampleAnimal, sampleAnimalB] =
      availableRegions [sampleAnimalC, sampleAnimalD] ∧
    (filteredAnimals [sampleAnimal, sampleAnimalB] "RM").length =
      (filteredAnimals [sampleAnimalC, sampleAnimalD] "RM").length :=
  ⟨by decide,
   (C10_region_noninterference [sampleAnimal, sampleAnimalB]
     [sampleAnimalC, sampleAnimalD] "RM" 1 (by decide)).1,
   (C10_region_noninterference [sampleAnimal, sampleAnimalB]
     [sampleAnimalC, sampleAnimalD] "RM" 1 (by decide)).2.2.2.1,
   (C10_region_noninterference [sampleAnimal, sampleAnimalB]
     [sampleAnimalC, sampleAnimalD] "RM" 1 (by decide)).2.2.2.2.1⟩
